import Mathlib

/-!
Verification development for the single-file car-sales dashboard script
(`car_sales_dashboard.py`).  The script loads a CSV into a pandas
DataFrame, classifies columns by dtype, applies a single categorical
equality filter, renders KPI means, four chart panels and a CSV export.

The shallow embedding below models a pandas DataFrame as a list of named,
dtype-tagged columns of nullable cells.  Numeric float cells are modelled
as exact decimals `m / 10^e` (pandas floats round-trip through their
shortest decimal representation, so at the value level a float behaves
like the decimal it prints as).  Missing values (`NaN`) are `none`.
-/

namespace CarDash

/-- The dtypes `pd.read_csv` can infer for a column: `int64`, `float64`,
`bool` (a column whose non-missing values are all boolean literals), and
`object` (strings). -/
inductive Dtype
  | int64
  | float64
  | boolT
  | objectT
deriving DecidableEq

/-- An exact decimal number `m / 10 ^ e`, the value-level model of a
pandas float (floats print as, and re-parse from, a decimal). -/
structure Dec where
  m : Int
  e : Nat
deriving DecidableEq

/-- The rational value of a decimal. -/
def Dec.toRat (d : Dec) : ℚ := (d.m : ℚ) / 10 ^ d.e

/-- A non-missing cell value. -/
inductive Val
  | vInt (n : Int)
  | vFloat (d : Dec)
  | vBool (b : Bool)
  | vStr (s : String)
deriving DecidableEq

/-- One DataFrame column: a name, an inferred dtype, and nullable cells. -/
structure Column where
  name : String
  dtype : Dtype
  cells : List (Option Val)
deriving DecidableEq

/-- A DataFrame: an ordered list of columns. -/
structure Table where
  cols : List Column
deriving DecidableEq

/-- `len(df)`: the number of rows (length of the first column). -/
def rowCount (t : Table) : Nat :=
  match t.cols with
  | [] => 0
  | c :: _ => c.cells.length

/-- Structural invariant of a DataFrame: all columns have the same length. -/
def wellFormed (t : Table) : Bool :=
  t.cols.all (fun c => c.cells.length == rowCount t)

/-- `df.columns`. -/
def colNames (t : Table) : List String := t.cols.map (·.name)

/-- Membership of a dtype in `["int64", "float64"]`. -/
def isNumericDtype (dt : Dtype) : Bool :=
  dt == Dtype.int64 || dt == Dtype.float64

/-- Line 22: `numeric_cols = df.select_dtypes(include=["int64", "float64"]).columns.tolist()`. -/
def numericCols (t : Table) : List String :=
  (t.cols.filter (fun c => isNumericDtype c.dtype)).map (·.name)

/-- Line 23: `categorical_cols = df.select_dtypes(include=["object"]).columns.tolist()`. -/
def categoricalCols (t : Table) : List String :=
  (t.cols.filter (fun c => c.dtype == Dtype.objectT)).map (·.name)

/-- `df[name]`: column lookup by name (first match, as in pandas with
unique labels). -/
def colOf (t : Table) (name : String) : Option Column :=
  t.cols.find? (fun c => c.name == name)

/-- Boolean-mask row selection, the semantics of `df[mask]` on one column. -/
def applyMask : List Bool → List (Option Val) → List (Option Val)
  | true :: bs, x :: xs => x :: applyMask bs xs
  | false :: bs, _ :: xs => applyMask bs xs
  | _, _ => []

/-- Line 34: `df = df[df[main_cat_col] == selected_cat]` — keep exactly the
rows whose cell in column `col` equals the string `v` (a `NaN` cell never
compares equal). -/
def filterEq (t : Table) (col v : String) : Table :=
  match colOf t col with
  | none => t
  | some c =>
    let mask := c.cells.map (fun cell => cell == some (Val.vStr v))
    ⟨t.cols.map (fun c2 => ⟨c2.name, c2.dtype, applyMask mask c2.cells⟩)⟩

/-- One reactive rerun of the filter section (lines 29–34): the script
re-executes from the cached base table; the filter is applied only when a
categorical column exists and the selection is not the `"All"` sentinel. -/
def rerunTable (base : Table) (col sel : String) : Table :=
  if (categoricalCols base).length > 0 && sel != "All" then filterEq base col sel
  else base

/-- The table displayed after a sequence of selections on the same filter
column: every rerun starts over from the cached base table, so only the
latest selection matters (lines 9–14, 29–34; the loader is cached). -/
def tableAfterSelections (base : Table) (col : String) (sels : List String) : Table :=
  rerunTable base col (sels.getLastD "All")

/-- The string held by a non-missing object cell. -/
def cellStr? : Option Val → Option String
  | some (Val.vStr s) => some s
  | _ => none

/-- `df[col].dropna()` for an object column: its non-missing strings, in
row order. -/
def nonNullStr (t : Table) (col : String) : List String :=
  match colOf t col with
  | none => []
  | some c => c.cells.filterMap cellStr?

/-- Code-point lexicographic comparison of character lists — the string
order used by Python's `sorted`. -/
def strLeChars : List Char → List Char → Bool
  | [], _ => true
  | _ :: _, [] => false
  | a :: as, b :: bs =>
    if a.toNat < b.toNat then true
    else if b.toNat < a.toNat then false
    else strLeChars as bs

/-- Code-point lexicographic string order. -/
def strLe (a b : String) : Bool := strLeChars a.toList b.toList

/-- `strLe` as a relation. -/
def strLeP (a b : String) : Prop := strLe a b = true

instance : DecidableRel strLeP := fun a b =>
  inferInstanceAs (Decidable (strLe a b = true))

instance : IsTotal String strLeP :=
  ⟨fun x y => by
    show strLeChars x.toList y.toList = true ∨ strLeChars y.toList x.toList = true
    generalize x.toList = as
    generalize y.toList = bs
    induction as generalizing bs with
    | nil => left; rfl
    | cons a as ih =>
      cases bs with
      | nil => right; rfl
      | cons b bs =>
        rcases Nat.lt_trichotomy a.toNat b.toNat with h | h | h
        · left; simp [strLeChars, h]
        · rcases ih bs with h2 | h2 <;>
            [left; right] <;> simp [strLeChars, h, h2]
        · right; simp [strLeChars, h]⟩

instance : IsTrans String strLeP :=
  ⟨fun x y z hxy hyz => by
    show strLeChars x.toList z.toList = true
    revert hxy hyz
    show strLeChars x.toList y.toList = true →
      strLeChars y.toList z.toList = true → strLeChars x.toList z.toList = true
    generalize x.toList = as
    generalize y.toList = bs
    generalize z.toList = cs
    intro h1 h2
    induction as generalizing bs cs with
    | nil => rfl
    | cons a as ih =>
      cases bs with
      | nil => simp [strLeChars] at h1
      | cons b bs =>
        cases cs with
        | nil => simp [strLeChars] at h2
        | cons c cs =>
          simp only [strLeChars] at h1 h2 ⊢
          by_cases hab : a.toNat < b.toNat
          · by_cases hbc : b.toNat < c.toNat
            · rw [if_pos (by omega)]
            · by_cases hcb : c.toNat < b.toNat
              · simp [hbc, hcb] at h2
              · rw [if_pos (by omega)]
          · by_cases hba : b.toNat < a.toNat
            · simp [hab, hba] at h1
            · by_cases hbc : b.toNat < c.toNat
              · rw [if_pos (by omega)]
              · by_cases hcb : c.toNat < b.toNat
                · simp [hbc, hcb] at h2
                · rw [if_neg (by omega), if_neg (by omega)]
                  rw [if_neg hab, if_neg hba] at h1
                  rw [if_neg hbc, if_neg hcb] at h2
                  exact ih bs cs h1 h2⟩

/-- Line 31: `unique_vals = ["All"] + sorted(df[main_cat_col].dropna().unique().tolist())`. -/
def uniqueVals (t : Table) (col : String) : List String :=
  "All" :: List.insertionSort strLeP (nonNullStr t col).dedup

/-- The numeric value of a cell for aggregation (`mean` treats ints and
floats numerically, booleans as 0/1, and never sees strings). -/
def valRat? : Val → Option ℚ
  | Val.vInt n => some n
  | Val.vFloat d => some d.toRat
  | Val.vBool b => some (if b then 1 else 0)
  | Val.vStr _ => none

/-- `df[col].mean()`: the arithmetic mean of the non-missing numeric
values of the column; `⊥` models pandas `NaN` (empty column). -/
def colMean (t : Table) (col : String) : WithBot ℚ :=
  match colOf t col with
  | none => ⊥
  | some c =>
    let vs := c.cells.filterMap (fun o => o.bind valRat?)
    if vs.length = 0 then ⊥ else some (vs.sum / vs.length)

/-- Lines 40–42 loop body: `for i, col in enumerate(numeric_cols[:4]):
cols[i].metric(...)`.  Writing to slot `i` of `st.columns(4)` raises
`IndexError` for `i ≥ 4`, modelled as `none`. -/
def kpiGo (t : Table) : List (Nat × String) → Option (List (String × WithBot ℚ))
  | [] => some []
  | (i, c) :: rest =>
    if i < 4 then (kpiGo t rest).map (fun l => (c, colMean t c) :: l) else none

/-- Lines 40–42: the KPI section, rendering one metric
`(col, df[col].mean())` per entry of `numeric_cols[:4]`. -/
def renderKPIs (names : List String) (t : Table) : Option (List (String × WithBot ℚ)) :=
  kpiGo t (names.take 4).enum

/-- `df.groupby(x)` group keys: the distinct non-missing values of `x`,
sorted ascending (pandas groupby sorts keys by default). -/
def groupKeys (t : Table) (x : String) : List String :=
  List.insertionSort strLeP (nonNullStr t x).dedup

/-- `df.groupby(x)[y].mean()` evaluated at group key `k`: the mean of `y`
over the rows whose `x`-cell equals `k`. -/
def groupMean (t : Table) (x y k : String) : WithBot ℚ :=
  colMean (filterEq t x k) y

/-- The grouped means, one per group key. -/
def barPairs (t : Table) (x y : String) : List (String × WithBot ℚ) :=
  (groupKeys t x).map (fun k => (k, groupMean t x y k))

/-- Descending-by-value order used by `sort_values(ascending=False)`;
`⊥` (`NaN`) sorts last (`na_position="last"`). -/
def barDesc (p q : String × WithBot ℚ) : Prop := q.2 ≤ p.2

instance : DecidableRel barDesc := fun p q =>
  inferInstanceAs (Decidable (q.2 ≤ p.2))

instance : IsTotal (String × WithBot ℚ) barDesc :=
  ⟨fun p q => (le_total q.2 p.2).imp id id⟩

instance : IsTrans (String × WithBot ℚ) barDesc :=
  ⟨fun _ _ _ h1 h2 => le_trans h2 h1⟩

/-- Line 55: `bar_data = df.groupby(x_col)[y_col].mean().sort_values(ascending=False).head(15)`. -/
def barData (t : Table) (x y : String) : List (String × WithBot ℚ) :=
  (List.insertionSort barDesc (barPairs t x y)).take 15

/-- Descending-by-count order used by `value_counts()`. -/
def pieDesc (p q : String × Nat) : Prop := q.2 ≤ p.2

instance : DecidableRel pieDesc := fun p q =>
  inferInstanceAs (Decidable (q.2 ≤ p.2))

instance : IsTotal (String × Nat) pieDesc :=
  ⟨fun p q => (le_total q.2 p.2).imp id id⟩

instance : IsTrans (String × Nat) pieDesc :=
  ⟨fun _ _ _ h1 h2 => le_trans h2 h1⟩

/-- `df[col].value_counts()`: (value, count) for each distinct non-missing
value, sorted by descending count. -/
def valueCounts (t : Table) (col : String) : List (String × Nat) :=
  let vs := nonNullStr t col
  List.insertionSort pieDesc (vs.dedup.map (fun k => (k, vs.count k)))

/-- Line 98: `pie_data = df[pie_col].value_counts().head(10)`. -/
def pieData (t : Table) (col : String) : List (String × Nat) :=
  (valueCounts t col).take 10

/-- `df[col].notna().sum()`: number of non-missing entries of the column. -/
def nonNullCount (t : Table) (col : String) : Nat :=
  match colOf t col with
  | none => 0
  | some c => (c.cells.filter (·.isSome)).length

/-- The rows of a table as lists of cells (what `px.scatter` renders and
`st.dataframe` previews). -/
def rowsOf (t : Table) : List (List (Option Val)) :=
  (List.range (rowCount t)).map (fun i => t.cols.map (fun c => c.cells.getD i none))

/-- `df[col]` as a cell list (the histogram's input series). -/
def colCells (t : Table) (col : String) : List (Option Val) :=
  match colOf t col with
  | none => []
  | some c => c.cells

/-! ### The CSV layer

`pd.read_csv` (line 11) and `df.to_csv(index=False)` (line 110).  A CSV is
modelled structurally as a header plus rows of raw cell strings (RFC-4180
quoting is a bijection between the flat text and this structure, shared by
pandas' reader and writer, so it is abstracted away).  `read_csv` infers a
dtype per column: all-integer → `int64` (or `float64` when missing values
are present, since `int64` cannot hold `NaN`), all-decimal → `float64`,
all boolean literals with nothing missing → `bool`, otherwise `object`;
the empty string is the missing-value marker (`to_csv` writes `NaN` as an
empty field). -/

/-- Numeric value of a digit character. -/
def digitVal (c : Char) : Nat := c.toNat - 48

/-- Value of a digit string (digits assumed; junk digits read as garbage). -/
def digitsFold (cs : List Char) : Nat :=
  cs.foldl (fun a c => 10 * a + digitVal c) 0

/-- Parse a non-empty all-digit string of characters as a natural number. -/
def digitsVal? (cs : List Char) : Option Nat :=
  if cs.isEmpty then none
  else if cs.all Char.isDigit then some (digitsFold cs)
  else none

/-- Decimal digits of a natural number, most significant first; the fuel
argument (always sufficient below) keeps the recursion structural. -/
def printNatCharsAux : Nat → Nat → List Char
  | 0, _ => []
  | fuel + 1, n =>
    if n < 10 then [Nat.digitChar n]
    else printNatCharsAux fuel (n / 10) ++ [Nat.digitChar (n % 10)]

/-- Decimal digits of a natural number, most significant first. -/
def printNatChars (n : Nat) : List Char := printNatCharsAux (n + 1) n

/-- Decimal rendering of a natural number. -/
def printNat (n : Nat) : String := ⟨printNatChars n⟩

/-- The empty field is the missing-value marker. -/
def isNA (s : String) : Bool := s == ""

/-- Integer literal: optional sign followed by digits (pandas accepts
leading zeros, `"007"` parses as `7`). -/
def parseIntCore? (cs : List Char) : Option Int :=
  if cs.head? = some '-' then (digitsVal? cs.tail).map (fun k => -(Int.ofNat k))
  else if cs.head? = some '+' then (digitsVal? cs.tail).map (fun k => Int.ofNat k)
  else (digitsVal? cs).map (fun k => Int.ofNat k)

/-- Integer literal, on a string. -/
def parseInt? (s : String) : Option Int := parseIntCore? s.toList

/-- Strip trailing zero digits of the fractional part, producing the
canonical decimal representing the same rational. -/
def decCanon : Int → Nat → Dec
  | m, 0 => ⟨m, 0⟩
  | m, e + 1 => if m % 10 = 0 then decCanon (m / 10) e else ⟨m, e + 1⟩

/-- Apply a decimal exponent to the mantissa `m / 10 ^ e`: every finite
float literal, scientific notation included, is an exact decimal. -/
def applyExp (m : Int) (e : Nat) (x : Int) : Dec :=
  if 0 ≤ x then decCanon (m * 10 ^ x.toNat) e else decCanon m (e + x.natAbs)

/-- After the mantissa `m / 10 ^ e`: end of input, or a decimal exponent
(`e`/`E`, optional sign, digits). -/
def parseAfterMantissa? (m : Int) (e : Nat) : List Char → Option Dec
  | [] => some (decCanon m e)
  | c :: ecs =>
    if c == 'e' || c == 'E' then (parseIntCore? ecs).map (fun x => applyExp m e x)
    else none

/-- After the integer digits (value `ipVal`, present iff `hasIp`): end of
input, a fractional part (digits optional when integer digits exist, as in
`5.` and `5.e3`; required otherwise, as in `.5`), or a direct exponent. -/
def parseDotExp? (ipVal : Nat) (hasIp : Bool) : List Char → Option Dec
  | [] => if hasIp then some ⟨Int.ofNat ipVal, 0⟩ else none
  | '.' :: rest2 =>
    if hasIp || !(rest2.takeWhile Char.isDigit).isEmpty then
      parseAfterMantissa?
        (Int.ofNat (ipVal * 10 ^ (rest2.takeWhile Char.isDigit).length
          + digitsFold (rest2.takeWhile Char.isDigit)))
        (rest2.takeWhile Char.isDigit).length
        (rest2.dropWhile Char.isDigit)
    else none
  | c :: ecs =>
    if hasIp && (c == 'e' || c == 'E') then
      (parseIntCore? ecs).map (fun x => applyExp (Int.ofNat ipVal) 0 x)
    else none

/-- Unsigned finite-float literal, the grammar of the pandas CSV reader:
`digits`, `digits.`, `digits.digits`, `.digits`, each with an optional
decimal exponent (`1e5`, `1.5E-3`).  The result is canonicalised (as a
float value, `"0.10"` and `"0.1"` are the same). -/
def parseDecCore? (cs : List Char) : Option Dec :=
  parseDotExp? (digitsFold (cs.takeWhile Char.isDigit))
    (!(cs.takeWhile Char.isDigit).isEmpty)
    (cs.dropWhile Char.isDigit)

/-- Float literal: optional sign followed by an unsigned decimal. -/
def parseDecSigned? (cs : List Char) : Option Dec :=
  if cs.head? = some '-' then (parseDecCore? cs.tail).map (fun d => ⟨-d.m, d.e⟩)
  else if cs.head? = some '+' then parseDecCore? cs.tail
  else parseDecCore? cs

/-- Float literal, on a string. -/
def parseDec? (s : String) : Option Dec := parseDecSigned? s.toList

/-- Boolean literals recognised by the pandas CSV parser. -/
def parseBool? (s : String) : Option Bool :=
  if s = "True" || s = "TRUE" || s = "true" then some true
  else if s = "False" || s = "FALSE" || s = "false" then some false
  else none

/-- Decimal rendering of an integer. -/
def printInt (n : Int) : String :=
  if n < 0 then ⟨'-' :: printNatChars n.natAbs⟩ else ⟨printNatChars n.natAbs⟩

/-- Fractional digits of `n` left-padded with zeros to width `e`. -/
def fracChars (e : Nat) (n : Nat) : List Char :=
  List.replicate (e - (printNatChars n).length) '0' ++ printNatChars n

/-- Unsigned decimal rendering `intpart.fracpart`; pandas always prints a
fractional part (`1.0`, not `1`). -/
def printDecCore (a e : Nat) : List Char :=
  if e = 0 then printNatChars a ++ ['.', '0']
  else printNatChars (a / 10 ^ e) ++ '.' :: fracChars e (a % 10 ^ e)

/-- Characters of the decimal rendering of a float value. -/
def printDecChars (d : Dec) : List Char :=
  if d.m < 0 then '-' :: printDecCore d.m.natAbs d.e
  else printDecCore d.m.natAbs d.e

/-- Decimal rendering of a float value. -/
def printDec (d : Dec) : String := ⟨printDecChars d⟩

/-- How `to_csv` renders one cell (`NaN` becomes the empty field). -/
def printVal : Option Val → String
  | none => ""
  | some (Val.vInt n) => printInt n
  | some (Val.vFloat d) => printDec d
  | some (Val.vBool b) => if b then "True" else "False"
  | some (Val.vStr s) => s

/-- A CSV file: header plus rows of raw cell strings. -/
structure Csv where
  header : List String
  rows : List (List String)
deriving DecidableEq

/-- The dtype-inference step of `pd.read_csv` for one column of raw
strings: all-integer → `int64` (`float64` when missing values occur,
since `int64` cannot hold `NaN`), all finite-float literals (fraction
and/or scientific-notation forms) → `float64`, all boolean literals with
nothing missing → `bool`, otherwise `object`. -/
def inferCells (raw : List String) : Dtype × List (Option Val) :=
  if (raw.filter (fun s => !(isNA s))).isEmpty then
    (Dtype.float64, raw.map (fun _ => none))
  else if (raw.filter (fun s => !(isNA s))).all (fun s => (parseInt? s).isSome) then
    if raw.any isNA then
      (Dtype.float64,
        raw.map (fun s =>
          if isNA s then none else some (Val.vFloat ⟨(parseInt? s).getD 0, 0⟩)))
    else
      (Dtype.int64, raw.map (fun s => some (Val.vInt ((parseInt? s).getD 0))))
  else if (raw.filter (fun s => !(isNA s))).all (fun s => (parseDec? s).isSome) then
    (Dtype.float64,
      raw.map (fun s =>
        if isNA s then none else some (Val.vFloat ((parseDec? s).getD ⟨0, 0⟩))))
  else if (raw.filter (fun s => !(isNA s))).all (fun s => (parseBool? s).isSome)
      && !(raw.any isNA) then
    (Dtype.boolT, raw.map (fun s => some (Val.vBool ((parseBool? s).getD false))))
  else
    (Dtype.objectT, raw.map (fun s => if isNA s then none else some (Val.vStr s)))

/-- One inferred column of `pd.read_csv`. -/
def inferColumn (name : String) (raw : List String) : Column :=
  ⟨name, (inferCells raw).1, (inferCells raw).2⟩

/-- Line 11: `pd.read_csv` — each header name yields one column inferred
from the raw strings below it. -/
def loadCSV (c : Csv) : Table :=
  ⟨c.header.enum.map (fun p => inferColumn p.2 (c.rows.map (fun r => r.getD p.1 "")))⟩

/-- Line 110: `df.to_csv(index=False)` — header row plus one rendered line
per data row, no index column. -/
def toCSV (t : Table) : Csv :=
  ⟨colNames t,
    (List.range (rowCount t)).map (fun i =>
      t.cols.map (fun c => printVal (c.cells.getD i none)))⟩

/-- The widget state a rerun sees: the filter pair and the per-chart
column choices. -/
structure Selections where
  mainCat : String
  selectedCat : String
  barX : String
  barY : String
  scatterX : String
  scatterY : String
  histCol : String
  pieCol : String
deriving DecidableEq

/-- Everything one rerun displays; a chart panel is `none` when its guard
skips it. -/
structure Output where
  kpis : Option (List (String × WithBot ℚ))
  preview : Table
  bar : Option (List (String × WithBot ℚ))
  scatter : Option (List (List (Option Val)))
  hist : Option (List (Option Val))
  pie : Option (List (String × Nat))
  csv : Csv
deriving DecidableEq

/-- One top-to-bottom rerun of the script body against the cached base
table: classify columns (lines 22–23), filter (lines 29–34), then KPIs
(40–42), preview (47–48), the four guarded chart panels (51, 69, 87, 95)
and the CSV export (110). -/
def runDashboard (base : Table) (s : Selections) : Output :=
  let numeric := numericCols base
  let catc := categoricalCols base
  let df :=
    if catc.length > 0 && s.selectedCat != "All" then filterEq base s.mainCat s.selectedCat
    else base
  { kpis := renderKPIs numeric df
    preview := df
    bar := if catc.length > 0 && numeric.length > 0 then some (barData df s.barX s.barY) else none
    scatter := if numeric.length ≥ 2 then some (rowsOf df) else none
    hist := if numeric.length > 0 then some (colCells df s.histCol) else none
    pie := if catc.length > 0 then some (pieData df s.pieCol) else none
    csv := toCSV df }

/-! ### Theorems -/

/-- Claim C2: applying the filter selection `(col, v)` and then changing
the selection to `(col, "All")` yields a table with the original
unfiltered row count — every rerun recomputes from the cached base table
and the `"All"` sentinel skips the filter entirely. -/
theorem filter_then_all_restores_rowcount (base : Table) (col v : String) :
    rowCount (tableAfterSelections base col [v, "All"]) = rowCount base := by
  simp [tableAfterSelections, rerunTable]

/-- The KPI loop never writes outside the four slots of `st.columns(4)`
because it iterates over `numeric_cols[:4]`. -/
theorem kpiGo_enumFrom (t : Table) (l : List String) (k : Nat) (h : k + l.length ≤ 4) :
    kpiGo t (l.enumFrom k) = some (l.map (fun c => (c, colMean t c))) := by
  induction l generalizing k with
  | nil => rfl
  | cons a as ih =>
    have hk : k < 4 := by simp at h; omega
    simp [List.enumFrom, kpiGo, hk, ih (k + 1) (by simp at h ⊢; omega)]

/-- Claim C5: the KPI panel renders exactly `min 4 n` metrics (the first
numeric columns in detected order), each showing the arithmetic mean of
its column over the table passed in; with fewer than four numeric columns
the loop succeeds (no `IndexError`) and emits nothing extra. -/
theorem kpi_renders_first_four_means (t : Table) :
    renderKPIs (numericCols t) t
        = some (((numericCols t).take 4).map (fun c => (c, colMean t c))) ∧
    (((numericCols t).take 4).map (fun c => (c, colMean t c))).length
        = min 4 (numericCols t).length := by
  constructor
  · exact kpiGo_enumFrom t _ 0 (by simp [List.length_take])
  · simp [List.length_take]

/-- Claim C7 (amended): each chart panel is rendered iff its guard holds —
bar needs a categorical and a numeric column, histogram a numeric column,
pie a categorical column, but scatter needs at least TWO numeric columns
(line 69: `len(numeric_cols) >= 2`), not one as the claim states. -/
theorem panel_guards (base : Table) (s : Selections) :
    ((runDashboard base s).bar.isSome ↔ categoricalCols base ≠ [] ∧ numericCols base ≠ []) ∧
    ((runDashboard base s).scatter.isSome ↔ 2 ≤ (numericCols base).length) ∧
    ((runDashboard base s).hist.isSome ↔ numericCols base ≠ []) ∧
    ((runDashboard base s).pie.isSome ↔ categoricalCols base ≠ []) := by
  refine ⟨?_, ?_, ?_, ?_⟩ <;>
    simp [runDashboard, List.length_pos, apply_ite Option.isSome]

/-- Claim C7 counterexample: on a table with exactly one numeric column a
qualifying (numeric) column exists, yet the scatter panel is omitted. -/
theorem scatter_guard_counterexample :
    1 ≤ (numericCols ⟨[⟨"n", Dtype.int64, [some (Val.vInt 1)]⟩]⟩).length ∧
    (runDashboard ⟨[⟨"n", Dtype.int64, [some (Val.vInt 1)]⟩]⟩
        ⟨"", "All", "", "", "", "", "", ""⟩).scatter = none := by
  exact ⟨by decide, rfl⟩

/-- The object-string cells of a column are among its non-missing cells. -/
theorem filterMap_cellStr_length_le (l : List (Option Val)) :
    (l.filterMap cellStr?).length ≤ (l.filter (·.isSome)).length := by
  induction l with
  | nil => simp
  | cons a as ih =>
    cases a with
    | none => simpa [cellStr?] using ih
    | some v =>
      cases v <;> simp [cellStr?, List.filterMap_cons, List.filter_cons] <;> omega

/-- Taking a prefix never increases a sum of naturals. -/
theorem sum_take_le (n : Nat) (l : List Nat) : (l.take n).sum ≤ l.sum := by
  conv_rhs => rw [← List.take_append_drop n l]
  rw [List.sum_append]
  exact Nat.le_add_right _ _

/-- The counts of `value_counts` sum to the number of counted (non-missing)
values. -/
theorem valueCounts_sum (t : Table) (col : String) :
    ((valueCounts t col).map (·.2)).sum = (nonNullStr t col).length := by
  unfold valueCounts
  have hp :=
    (List.perm_insertionSort pieDesc
      ((nonNullStr t col).dedup.map
        (fun k => (k, (nonNullStr t col).count k)))).map (Prod.snd : String × Nat → Nat)
  rw [hp.sum_eq, List.map_map]
  exact List.sum_map_count_dedup_eq_length _

/-- Claim C4: the pie chart shows at most 10 values, they are the most
frequent ones (every shown count dominates every dropped count), and the
shown counts sum to at most the column's non-missing count. -/
theorem pie_top10_bounds (t : Table) (col : String) :
    (pieData t col).length ≤ 10 ∧
    (∀ p ∈ pieData t col, ∀ q ∈ (valueCounts t col).drop 10, q.2 ≤ p.2) ∧
    ((pieData t col).map (·.2)).sum ≤ nonNullCount t col := by
  refine ⟨List.length_take_le .., ?_, ?_⟩
  · have hs : List.Pairwise pieDesc (valueCounts t col) := by
      unfold valueCounts
      exact List.sorted_insertionSort pieDesc _
    have := (List.take_append_drop 10 (valueCounts t col)) ▸ hs
    exact (List.pairwise_append.1 this).2.2
  · calc ((pieData t col).map (·.2)).sum
        = (((valueCounts t col).map (·.2)).take 10).sum := by
          unfold pieData; rw [List.map_take]
      _ ≤ ((valueCounts t col).map (·.2)).sum := sum_take_le ..
      _ = (nonNullStr t col).length := valueCounts_sum t col
      _ ≤ nonNullCount t col := by
          unfold nonNullStr nonNullCount
          cases colOf t col with
          | none => simp
          | some c => exact filterMap_cellStr_length_le c.cells

/-- Claim C3: the bar chart shows at most 15 groups, sorted descending by
the aggregated mean (`NaN` means last), every shown bar is the per-group
arithmetic mean of `y` over the rows of its group, and the shown group
keys are distinct non-missing values of `x`. -/
theorem bar_top15_sorted_means (t : Table) (x y : String) :
    (barData t x y).length ≤ 15 ∧
    List.Sorted barDesc (barData t x y) ∧
    (∀ p ∈ barData t x y, p.2 = groupMean t x y p.1) ∧
    ((barData t x y).map (·.1)).Nodup ∧
    (∀ p ∈ barData t x y, p.1 ∈ (nonNullStr t x).dedup) := by
  have hmem : ∀ p ∈ barData t x y, p ∈ barPairs t x y := by
    intro p hp
    exact (List.mem_insertionSort barDesc).1 (List.mem_of_mem_take hp)
  have hpair : ∀ p ∈ barPairs t x y,
      p.2 = groupMean t x y p.1 ∧ p.1 ∈ (nonNullStr t x).dedup := by
    intro p hp
    unfold barPairs at hp
    rcases List.mem_map.1 hp with ⟨k, hk, rfl⟩
    exact ⟨rfl, (List.mem_insertionSort _).1 hk⟩
  refine ⟨List.length_take_le .., ?_, ?_, ?_, ?_⟩
  · exact List.Pairwise.sublist (List.take_sublist ..)
      (List.sorted_insertionSort barDesc _)
  · exact fun p hp => (hpair p (hmem p hp)).1
  · have h1 : ((barPairs t x y).map (·.1)).Nodup := by
      unfold barPairs
      rw [List.map_map]
      rw [show ((fun p : String × WithBot ℚ => p.1) ∘ fun k => (k, groupMean t x y k))
          = id from rfl, List.map_id]
      unfold groupKeys
      exact (List.perm_insertionSort _ _).nodup_iff.2 (List.nodup_dedup _)
    have h2 : ((List.insertionSort barDesc (barPairs t x y)).map (·.1)).Nodup :=
      (((List.perm_insertionSort barDesc (barPairs t x y)).map _)).nodup_iff.2 h1
    rw [barData, List.map_take]
    exact h2.sublist (List.take_sublist ..)
  · exact fun p hp => (hpair p (hmem p hp)).2

/-- Claim C10 counterexample: when the filter column itself contains the
string `"All"`, the option list duplicates it — the sentinel is prepended
unconditionally at line 31. -/
theorem uniqueVals_counterexample :
    some (Val.vStr "All")
        ∈ (Column.mk "c" Dtype.objectT
            [some (Val.vStr "All"), some (Val.vStr "B")]).cells ∧
    uniqueVals ⟨[⟨"c", Dtype.objectT, [some (Val.vStr "All"), some (Val.vStr "B")]⟩]⟩ "c"
        = ["All", "All", "B"] ∧
    ¬ (uniqueVals ⟨[⟨"c", Dtype.objectT,
        [some (Val.vStr "All"), some (Val.vStr "B")]⟩]⟩ "c").Nodup := by
  refine ⟨by decide, by decide, by decide⟩

/-- Claim C10 (amended): the selectable filter values are exactly `"All"`
followed by the distinct non-missing values of the column in ascending
order; provided the column does not itself contain the string `"All"`,
no option appears twice. -/
theorem uniqueVals_amended (t : Table) (col : String)
    (h : "All" ∉ nonNullStr t col) :
    (uniqueVals t col).head? = some "All" ∧
    List.Sorted strLeP (uniqueVals t col).tail ∧
    (∀ s, s ∈ (uniqueVals t col).tail ↔ s ∈ nonNullStr t col) ∧
    (uniqueVals t col).Nodup := by
  have htail : (uniqueVals t col).tail
      = List.insertionSort strLeP (nonNullStr t col).dedup := rfl
  have hmem : ∀ s, s ∈ (uniqueVals t col).tail ↔ s ∈ nonNullStr t col := by
    intro s
    rw [htail, List.mem_insertionSort, List.mem_dedup]
  refine ⟨rfl, ?_, hmem, ?_⟩
  · rw [htail]; exact List.sorted_insertionSort _ _
  · rw [show uniqueVals t col = "All" :: (uniqueVals t col).tail from rfl]
    rw [List.nodup_cons]
    constructor
    · intro hAll
      exact h ((hmem _).1 hAll)
    · rw [htail]
      exact (List.perm_insertionSort _ _).nodup_iff.2 (List.nodup_dedup _)

/-- Claim C10 amended, witness at a concrete column. -/
theorem uniqueVals_amended_witness :
    ("All" ∉ nonNullStr ⟨[⟨"c", Dtype.objectT,
        [some (Val.vStr "zeta"), some (Val.vStr "alpha"), none]⟩]⟩ "c") ∧
    ((uniqueVals ⟨[⟨"c", Dtype.objectT,
        [some (Val.vStr "zeta"), some (Val.vStr "alpha"), none]⟩]⟩ "c").head?
          = some "All" ∧
      List.Sorted strLeP (uniqueVals ⟨[⟨"c", Dtype.objectT,
        [some (Val.vStr "zeta"), some (Val.vStr "alpha"), none]⟩]⟩ "c").tail ∧
      (∀ s, s ∈ (uniqueVals ⟨[⟨"c", Dtype.objectT,
        [some (Val.vStr "zeta"), some (Val.vStr "alpha"), none]⟩]⟩ "c").tail
          ↔ s ∈ nonNullStr ⟨[⟨"c", Dtype.objectT,
              [some (Val.vStr "zeta"), some (Val.vStr "alpha"), none]⟩]⟩ "c") ∧
      (uniqueVals ⟨[⟨"c", Dtype.objectT,
        [some (Val.vStr "zeta"), some (Val.vStr "alpha"), none]⟩]⟩ "c").Nodup) :=
  ⟨by decide, uniqueVals_amended _ _ (by decide)⟩

/-- Masking a list keeps as many entries as the mask has `true`s. -/
theorem applyMask_length (mask : List Bool) (l : List (Option Val)) (h : mask.length = l.length) :
    (applyMask mask l).length = (mask.filter id).length := by
  induction mask generalizing l with
  | nil => simp [applyMask]
  | cons b bs ih =>
    cases l with
    | nil => simp at h
    | cons x xs =>
      cases b <;> simp [applyMask, List.filter_cons, ih xs (by simpa using h)]

/-- Column lengths, spelled out from `wellFormed`. -/
theorem wellFormed_lengths (t : Table) (hw : wellFormed t = true) :
    ∀ c ∈ t.cols, c.cells.length = rowCount t := by
  intro c hc
  simpa using List.all_eq_true.mp hw c hc

/-- Row filtering preserves the equal-column-length invariant. -/
theorem wellFormed_filterEq (t : Table) (col v : String) (hw : wellFormed t = true) :
    wellFormed (filterEq t col v) = true := by
  have hw' := wellFormed_lengths t hw
  unfold filterEq
  cases hc : colOf t col with
  | none => exact hw
  | some c0 =>
    have hc0 : c0 ∈ t.cols := List.mem_of_find?_eq_some hc
    have hmask : (c0.cells.map (fun cell => cell == some (Val.vStr v))).length
        = rowCount t := by
      simpa using hw' c0 hc0
    cases ht : t.cols with
    | nil => rw [ht] at hc0; cases hc0
    | cons chead rest =>
      apply List.all_eq_true.mpr
      intro c' hc'
      rcases List.mem_map.1 hc' with ⟨c2, hc2, rfl⟩
      have hlen : ∀ c3 : Column, c3 ∈ t.cols →
          (applyMask (c0.cells.map (fun cell => cell == some (Val.vStr v))) c3.cells).length
            = ((c0.cells.map (fun cell => cell == some (Val.vStr v))).filter id).length := by
        intro c3 hc3
        exact applyMask_length _ _ (by rw [hmask, hw' c3 hc3])
      have hhead : chead ∈ t.cols := by rw [ht]; exact List.mem_cons_self _ _
      have hc2' : c2 ∈ t.cols := by rw [ht]; exact hc2
      simp only [rowCount, List.map_cons]
      simpa using (hlen c2 hc2').trans (hlen chead hhead).symm

/-- A well-formed table with zero rows has no cells in any column. -/
theorem table_empty_cells (t : Table) (hw : wellFormed t = true) (h0 : rowCount t = 0) :
    ∀ c ∈ t.cols, c.cells = [] := by
  intro c hc
  have := wellFormed_lengths t hw c hc
  rw [h0] at this
  exact List.length_eq_zero.mp this

/-- A rerun's displayed table keeps the invariant. -/
theorem wellFormed_rerunTable (base : Table) (col v : String) (hw : wellFormed base = true) :
    wellFormed (rerunTable base col v) = true := by
  unfold rerunTable
  split
  · exact wellFormed_filterEq base col v hw
  · exact hw

/-- On a table with no cells, every column mean is `NaN`. -/
theorem colMean_bot (t : Table) (he : ∀ c ∈ t.cols, c.cells = []) (col : String) :
    colMean t col = ⊥ := by
  unfold colMean
  cases hc : colOf t col with
  | none => rfl
  | some c => simp [he c (List.mem_of_find?_eq_some hc)]

/-- On a table with no cells, every column's non-missing strings are empty. -/
theorem nonNullStr_nil (t : Table) (he : ∀ c ∈ t.cols, c.cells = []) (col : String) :
    nonNullStr t col = [] := by
  unfold nonNullStr
  cases hc : colOf t col with
  | none => rfl
  | some c => simp [he c (List.mem_of_find?_eq_some hc)]

/-- Claim C9: a filter selection matching zero rows raises no error — the
KPI loop still succeeds and every KPI mean is `NaN` (`⊥`), and the bar and
pie aggregations are empty. -/
theorem empty_filter_degrades (base : Table) (col v : String)
    (hw : wellFormed base = true)
    (h0 : rowCount (rerunTable base col v) = 0) :
    renderKPIs (numericCols base) (rerunTable base col v)
        = some (((numericCols base).take 4).map (fun c => (c, (⊥ : WithBot ℚ)))) ∧
    (∀ x y, barData (rerunTable base col v) x y = []) ∧
    (∀ c, pieData (rerunTable base col v) c = []) := by
  have he : ∀ c ∈ (rerunTable base col v).cols, c.cells = [] :=
    table_empty_cells _ (wellFormed_rerunTable base col v hw) h0
  refine ⟨?_, ?_, ?_⟩
  · have h2 : renderKPIs (numericCols base) (rerunTable base col v)
        = some (((numericCols base).take 4).map
            (fun c => (c, colMean (rerunTable base col v) c))) :=
      kpiGo_enumFrom _ _ 0 (by simp [List.length_take])
    rw [h2]
    congr 1
    exact List.map_congr_left (fun c _ => by rw [colMean_bot _ he c])
  · intro x y
    simp [barData, barPairs, groupKeys, nonNullStr_nil _ he]
  · intro c
    simp [pieData, valueCounts, nonNullStr_nil _ he]

/-- Claim C9, witness: filtering a one-row table on an absent value leaves
zero rows; the KPIs degrade to `NaN` and the aggregations to empty data. -/
theorem empty_filter_degrades_witness :
    (wellFormed ⟨[⟨"g", Dtype.objectT, [some (Val.vStr "p")]⟩,
        ⟨"n", Dtype.int64, [some (Val.vInt 3)]⟩]⟩ = true ∧
      rowCount (rerunTable ⟨[⟨"g", Dtype.objectT, [some (Val.vStr "p")]⟩,
        ⟨"n", Dtype.int64, [some (Val.vInt 3)]⟩]⟩ "g" "q") = 0) ∧
    (renderKPIs (numericCols ⟨[⟨"g", Dtype.objectT, [some (Val.vStr "p")]⟩,
          ⟨"n", Dtype.int64, [some (Val.vInt 3)]⟩]⟩)
        (rerunTable ⟨[⟨"g", Dtype.objectT, [some (Val.vStr "p")]⟩,
          ⟨"n", Dtype.int64, [some (Val.vInt 3)]⟩]⟩ "g" "q")
        = some (((numericCols ⟨[⟨"g", Dtype.objectT, [some (Val.vStr "p")]⟩,
            ⟨"n", Dtype.int64, [some (Val.vInt 3)]⟩]⟩).take 4).map
              (fun c => (c, (⊥ : WithBot ℚ)))) ∧
      (∀ x y, barData (rerunTable ⟨[⟨"g", Dtype.objectT, [some (Val.vStr "p")]⟩,
          ⟨"n", Dtype.int64, [some (Val.vInt 3)]⟩]⟩ "g" "q") x y = []) ∧
      (∀ c, pieData (rerunTable ⟨[⟨"g", Dtype.objectT, [some (Val.vStr "p")]⟩,
          ⟨"n", Dtype.int64, [some (Val.vInt 3)]⟩]⟩ "g" "q") c = [])) :=
  ⟨⟨by decide, by decide⟩, empty_filter_degrades _ "g" "q" (by decide) (by decide)⟩

/-- Claim C8: once a non-`"All"` selection is applied, every displayed
artifact — KPIs, table preview, CSV export, and each rendered chart's
data — is computed from the filtered table. -/
theorem filtered_provenance (base : Table) (s : Selections)
    (hc : categoricalCols base ≠ []) (hs : s.selectedCat ≠ "All") :
    (runDashboard base s).kpis
        = renderKPIs (numericCols base) (filterEq base s.mainCat s.selectedCat) ∧
    (runDashboard base s).preview = filterEq base s.mainCat s.selectedCat ∧
    (runDashboard base s).csv = toCSV (filterEq base s.mainCat s.selectedCat) ∧
    (∀ d, (runDashboard base s).bar = some d →
      d = barData (filterEq base s.mainCat s.selectedCat) s.barX s.barY) ∧
    (∀ d, (runDashboard base s).scatter = some d →
      d = rowsOf (filterEq base s.mainCat s.selectedCat)) ∧
    (∀ d, (runDashboard base s).hist = some d →
      d = colCells (filterEq base s.mainCat s.selectedCat) s.histCol) ∧
    (∀ d, (runDashboard base s).pie = some d →
      d = pieData (filterEq base s.mainCat s.selectedCat) s.pieCol) := by
  have hcond : ((categoricalCols base).length > 0 && s.selectedCat != "All") = true := by
    simp [List.length_pos, hc, hs]
  refine ⟨?_, ?_, ?_, ?_, ?_, ?_, ?_⟩ <;>
    simp only [runDashboard, hcond, if_true] <;>
    first
      | rfl
      | (intro d hd; split at hd <;> simp_all)

/-- Claim C8, witness at a concrete table and a concrete non-`"All"`
selection. -/
theorem filtered_provenance_witness :
    (categoricalCols ⟨[⟨"g", Dtype.objectT,
          [some (Val.vStr "p"), some (Val.vStr "q")]⟩,
        ⟨"n", Dtype.int64, [some (Val.vInt 1), some (Val.vInt 2)]⟩]⟩ ≠ [] ∧
      (Selections.mk "g" "p" "g" "n" "n" "n" "n" "g").selectedCat ≠ "All") ∧
    ((runDashboard ⟨[⟨"g", Dtype.objectT,
          [some (Val.vStr "p"), some (Val.vStr "q")]⟩,
        ⟨"n", Dtype.int64, [some (Val.vInt 1), some (Val.vInt 2)]⟩]⟩
        (Selections.mk "g" "p" "g" "n" "n" "n" "n" "g")).preview
      = filterEq ⟨[⟨"g", Dtype.objectT,
          [some (Val.vStr "p"), some (Val.vStr "q")]⟩,
        ⟨"n", Dtype.int64, [some (Val.vInt 1), some (Val.vInt 2)]⟩]⟩ "g" "p") :=
  ⟨⟨by decide, by decide⟩,
    (filtered_provenance ⟨[⟨"g", Dtype.objectT,
          [some (Val.vStr "p"), some (Val.vStr "q")]⟩,
        ⟨"n", Dtype.int64, [some (Val.vInt 1), some (Val.vInt 2)]⟩]⟩
        (Selections.mk "g" "p" "g" "n" "n" "n" "n" "g")
        (by decide) (by decide)).2.1⟩

/-- Claim C1 counterexample: a valid CSV whose single column holds boolean
literals loads as a `bool`-dtype column, which `select_dtypes` places in
neither `numeric_cols` nor `categorical_cols` — the partition misses it. -/
theorem bool_column_unclassified :
    "flag" ∈ colNames (loadCSV ⟨["flag"], [["True"], ["False"]]⟩) ∧
    "flag" ∉ numericCols (loadCSV ⟨["flag"], [["True"], ["False"]]⟩) ∧
    "flag" ∉ categoricalCols (loadCSV ⟨["flag"], [["True"], ["False"]]⟩) := by
  refine ⟨by decide, by decide, by decide⟩

/-- Claim C1 (amended): for tables none of whose columns has the inferred
`bool` dtype (and with distinct column names, as the loader guarantees),
`numeric_cols` and `categorical_cols` exactly partition the columns:
every name is in exactly one list. -/
theorem classifier_partition_amended (t : Table)
    (hb : t.cols.all (fun c => c.dtype != Dtype.boolT) = true)
    (hn : (colNames t).Nodup) :
    (∀ name, name ∈ colNames t ↔ (name ∈ numericCols t ∨ name ∈ categoricalCols t)) ∧
    (∀ name, ¬ (name ∈ numericCols t ∧ name ∈ categoricalCols t)) := by
  constructor
  · intro name
    constructor
    · intro h
      rcases List.mem_map.1 h with ⟨c, hc, rfl⟩
      have hbc : c.dtype ≠ Dtype.boolT := by
        simpa using List.all_eq_true.mp hb c hc
      cases hd : c.dtype with
      | int64 =>
        exact Or.inl (List.mem_map.2
          ⟨c, List.mem_filter.2 ⟨hc, by simp [isNumericDtype, hd]⟩, rfl⟩)
      | float64 =>
        exact Or.inl (List.mem_map.2
          ⟨c, List.mem_filter.2 ⟨hc, by simp [isNumericDtype, hd]⟩, rfl⟩)
      | boolT => exact absurd hd hbc
      | objectT =>
        exact Or.inr (List.mem_map.2
          ⟨c, List.mem_filter.2 ⟨hc, by simp [hd]⟩, rfl⟩)
    · intro h
      rcases h with h | h <;>
        rcases List.mem_map.1 h with ⟨c, hc, rfl⟩ <;>
        exact List.mem_map.2 ⟨c, (List.mem_filter.1 hc).1, rfl⟩
  · rintro name ⟨h1, h2⟩
    rcases List.mem_map.1 h1 with ⟨c1, hc1, he1⟩
    rcases List.mem_map.1 h2 with ⟨c2, hc2, he2⟩
    have hm1 := List.mem_filter.1 hc1
    have hm2 := List.mem_filter.1 hc2
    have hceq : c1 = c2 :=
      List.inj_on_of_nodup_map hn hm1.1 hm2.1 (he1.trans he2.symm)
    have hnum := hm1.2
    have hobj := hm2.2
    rw [hceq] at hnum
    revert hnum hobj
    cases c2.dtype <;> simp [isNumericDtype]

/-- Claim C1 amended, witness on a concrete loaded table with an `int64`
and an `object` column. -/
theorem classifier_partition_amended_witness :
    ((loadCSV ⟨["a", "b"], [["1", "x"], ["2", "y"]]⟩).cols.all
        (fun c => c.dtype != Dtype.boolT) = true ∧
      (colNames (loadCSV ⟨["a", "b"], [["1", "x"], ["2", "y"]]⟩)).Nodup) ∧
    ((∀ name, name ∈ colNames (loadCSV ⟨["a", "b"], [["1", "x"], ["2", "y"]]⟩)
        ↔ (name ∈ numericCols (loadCSV ⟨["a", "b"], [["1", "x"], ["2", "y"]]⟩)
          ∨ name ∈ categoricalCols (loadCSV ⟨["a", "b"], [["1", "x"], ["2", "y"]]⟩))) ∧
      (∀ name, ¬ (name ∈ numericCols (loadCSV ⟨["a", "b"], [["1", "x"], ["2", "y"]]⟩)
        ∧ name ∈ categoricalCols (loadCSV ⟨["a", "b"], [["1", "x"], ["2", "y"]]⟩)))) :=
  ⟨⟨by decide, by decide⟩,
    classifier_partition_amended _ (by decide) (by decide)⟩

/-! ### Round-trip lemmas for the CSV cell grammar -/

theorem digitChar_isDigit (d : Nat) (h : d < 10) : (Nat.digitChar d).isDigit = true := by
  interval_cases d <;> decide

theorem digitVal_digitChar (d : Nat) (h : d < 10) : digitVal (Nat.digitChar d) = d := by
  interval_cases d <;> decide

theorem printNatCharsAux_fuel (f1 : Nat) : ∀ f2 n : Nat, n < f1 → n < f2 →
    printNatCharsAux f1 n = printNatCharsAux f2 n := by
  induction f1 with
  | zero => omega
  | succ f1 ih =>
    intro f2 n h1 h2
    cases f2 with
    | zero => omega
    | succ f2 =>
      simp only [printNatCharsAux]
      by_cases h : n < 10
      · rw [if_pos h, if_pos h]
      · rw [if_neg h, if_neg h]
        have hd : n / 10 < n := Nat.div_lt_self (by omega) (by omega)
        rw [ih f2 (n / 10) (by omega) (by omega)]

/-- The defining recurrence of `printNatChars`. -/
theorem printNatChars_eq (n : Nat) :
    printNatChars n = if n < 10 then [Nat.digitChar n]
      else printNatChars (n / 10) ++ [Nat.digitChar (n % 10)] := by
  unfold printNatChars
  by_cases h : n < 10
  · simp [printNatCharsAux, h]
  · simp only [printNatCharsAux, if_neg h]
    have hd : n / 10 < n := Nat.div_lt_self (by omega) (by omega)
    rw [printNatCharsAux_fuel n (n / 10 + 1) (n / 10) (by omega) (by omega)]
    rfl

theorem printNatChars_ne_nil (n : Nat) : printNatChars n ≠ [] := by
  rw [printNatChars_eq]
  split <;> simp

theorem printNatChars_all_digits (n : Nat) :
    (printNatChars n).all Char.isDigit = true := by
  induction n using Nat.strong_induction_on with
  | _ n ih =>
    rw [printNatChars_eq]
    split
    · next h => simp [digitChar_isDigit n h]
    · next h =>
      have h1 := ih (n / 10) (Nat.div_lt_self (by omega) (by omega))
      simp [List.all_append, h1, digitChar_isDigit (n % 10) (by omega)]

theorem foldl_digits_printNatChars (n : Nat) : ∀ a : Nat,
    (printNatChars n).foldl (fun x c => 10 * x + digitVal c) a
      = a * 10 ^ (printNatChars n).length + n := by
  induction n using Nat.strong_induction_on with
  | _ n ih =>
    intro a
    rw [printNatChars_eq]
    split
    · next h =>
      simp [digitVal_digitChar n h]
      omega
    · next h =>
      rw [List.foldl_append,
        ih (n / 10) (Nat.div_lt_self (by omega) (by omega)) a]
      simp only [List.foldl_cons, List.foldl_nil, List.length_append,
        List.length_cons, List.length_nil, digitVal_digitChar (n % 10) (by omega)]
      have hp : 10 ^ ((printNatChars (n / 10)).length + (0 + 1))
          = 10 ^ (printNatChars (n / 10)).length * 10 := by
        rw [pow_succ]
      rw [hp]
      have hdm : 10 * (n / 10) + n % 10 = n := Nat.div_add_mod n 10
      nlinarith [hdm]

theorem foldl_digits_replicate_zero (k : Nat) (l : List Char) :
    (List.replicate k '0' ++ l).foldl (fun x c => 10 * x + digitVal c) 0
      = l.foldl (fun x c => 10 * x + digitVal c) 0 := by
  induction k with
  | zero => simp
  | succ k ih =>
    rw [List.replicate_succ, List.cons_append, List.foldl_cons,
      show (10 * 0 + digitVal '0') = 0 from by decide]
    exact ih

theorem fracChars_all_digits (e n : Nat) : (fracChars e n).all Char.isDigit = true := by
  unfold fracChars
  rw [List.all_append, Bool.and_eq_true]
  refine ⟨?_, printNatChars_all_digits n⟩
  rw [List.all_eq_true]
  intro c hc
  rw [List.eq_of_mem_replicate hc]
  decide

theorem fracChars_ne_nil (e n : Nat) : fracChars e n ≠ [] := by
  unfold fracChars
  intro h
  rcases List.append_eq_nil.mp h with ⟨_, h2⟩
  exact printNatChars_ne_nil n h2

theorem digitsFold_fracChars (e n : Nat) : digitsFold (fracChars e n) = n := by
  unfold digitsFold fracChars
  rw [foldl_digits_replicate_zero, foldl_digits_printNatChars n 0]
  simp

theorem digitsVal_fracChars (e n : Nat) :
    digitsVal? (fracChars e n) = some n := by
  unfold digitsVal?
  rw [if_neg (by simp [fracChars_ne_nil e n]), if_pos (fracChars_all_digits e n),
    digitsFold_fracChars]

end CarDash
